import Mathlib

/-!
# Verification of the SGA-V10 binary codec (`relic/sga/v10/serialization.py`)

Shallow embedding of the byte-level serializers. Byte streams are `List Nat`
(each element one byte); little-endian fixed-width integer fields follow
Python `struct` with the `<` byte order. Strings at the byte boundary are
modelled at the UTF-16 code-unit level: the archive name is a `List Nat` of
16-bit code units, `utf-16-le` encoding emits two bytes per unit.
Fallible operations (`struct` errors, enum `ValueError`, reserved-field
`MismatchError`) return an explicit result type instead of raising.
-/

set_option maxRecDepth 10000

namespace SGAV10

/-- Little-endian encoding of `v` into `w` bytes (a `struct` `<` integer field). -/
def toLE : Nat → Nat → List Nat
  | 0, _ => []
  | w + 1, v => v % 256 :: toLE w (v / 256)

/-- Read `w` bytes little-endian from the front of the stream, returning the
value and the remaining stream; `none` when the stream is too short. -/
def readLE : Nat → List Nat → Option (Nat × List Nat)
  | 0, bs => some (0, bs)
  | _ + 1, [] => none
  | w + 1, b :: bs =>
    match readLE w bs with
    | some (v, rest) => some (b + 256 * v, rest)
    | none => none

/-- Read `w` raw bytes (a `struct` `Ns` field) from the front of the stream. -/
def readBytes (w : Nat) (bs : List Nat) : Option (List Nat × List Nat) :=
  if w ≤ bs.length then some (bs.take w, bs.drop w) else none

/-- `struct` `Ns` packing: the payload is truncated to `w` bytes or padded
with trailing zero bytes, exactly as Python `struct.pack` does for `s`. -/
def padTrunc (w : Nat) (s : List Nat) : List Nat :=
  s.take w ++ List.replicate (w - s.length) 0

@[simp] theorem toLE_length (w v : Nat) : (toLE w v).length = w := by
  induction w generalizing v with
  | zero => rfl
  | succ w ih => simp [toLE, ih]

theorem readLE_toLE (w v : Nat) (rest : List Nat) (h : v < 256 ^ w) :
    readLE w (toLE w v ++ rest) = some (v, rest) := by
  induction w generalizing v with
  | zero =>
    have : v = 0 := Nat.lt_one_iff.mp (by simpa using h)
    simp [toLE, readLE, this]
  | succ w ih =>
    have hdiv : v / 256 < 256 ^ w := by
      have : v < 256 ^ w * 256 := by
        simpa [Nat.pow_succ] using h
      exact Nat.div_lt_of_lt_mul (by simpa [Nat.mul_comm] using this)
    simp [toLE, readLE, ih (v / 256) hdiv, Nat.mod_add_div v 256]

theorem readBytes_of_length (w : Nat) (s rest : List Nat) (h : s.length = w) :
    readBytes w (s ++ rest) = some (s, rest) := by
  subst h
  simp [readBytes, List.take_left, List.drop_left]

theorem readBytes_some (w : Nat) (bs p r : List Nat)
    (h : readBytes w bs = some (p, r)) : p.length = w := by
  unfold readBytes at h
  split at h
  · rename_i hle
    cases h
    simpa using Nat.min_eq_left hle
  · cases h

@[simp] theorem padTrunc_length (w : Nat) (s : List Nat) :
    (padTrunc w s).length = w := by
  simp only [padTrunc, List.length_append, List.length_take, List.length_replicate]
  omega

theorem padTrunc_of_length (w : Nat) (s : List Nat) (h : s.length = w) :
    padTrunc w s = s := by
  subst h
  simp [padTrunc, List.take_of_length_le (Nat.le_refl _)]

theorem padTrunc_of_le (w : Nat) (s : List Nat) (h : s.length ≤ w) :
    padTrunc w s = s ++ List.replicate (w - s.length) 0 := by
  simp [padTrunc, List.take_of_length_le h]

theorem padTrunc_of_ge (w : Nat) (s : List Nat) (h : w ≤ s.length) :
    padTrunc w s = s.take w := by
  simp [padTrunc, Nat.sub_eq_zero_of_le h]

/-- Drop past an initial segment of known length. -/
theorem drop_peel (s t : List Nat) (n : Nat) (h : s.length ≤ n) :
    (s ++ t).drop n = t.drop (n - s.length) := by
  induction s generalizing n with
  | nil => simp
  | cons a s ih =>
    cases n with
    | zero => simp at h
    | succ n =>
      simpa using ih n (Nat.le_of_succ_le_succ h)

/-- Take across an initial segment of known length. -/
theorem take_peel (s t : List Nat) (n : Nat) (h : s.length ≤ n) :
    (s ++ t).take n = s ++ t.take (n - s.length) := by
  induction s generalizing n with
  | nil => simp
  | cons a s ih =>
    cases n with
    | zero => simp at h
    | succ n =>
      simpa using ih n (Nat.le_of_succ_le_succ h)

/-! ## Enumerations -/

/-- Modelled from the spec: `StorageType` lives in `relic.sga.core.definitions`
(not under `src/`). It is the closed enumeration of compression scheme tags;
the discriminants are 0 (store), 1 (buffer compress), 2 (stream compress) —
the spec's concrete scenario requires 2 to be a member. -/
inductive StorageType where
  | STORE
  | BUFFER_COMPRESS
  | STREAM_COMPRESS
deriving DecidableEq

/-- Integer discriminant of a `StorageType` member. -/
def StorageType.val : StorageType → Nat
  | .STORE => 0
  | .BUFFER_COMPRESS => 1
  | .STREAM_COMPRESS => 2

/-- Fallible conversion `StorageType(value)`: Python raises `ValueError`
(a domain error) on a non-member. -/
def StorageType.ofVal : Nat → Option StorageType
  | 0 => some .STORE
  | 1 => some .BUFFER_COMPRESS
  | 2 => some .STREAM_COMPRESS
  | _ => none

/-- `EncryptionType` from `serialization.py`: `NONE = 0`, `AES128 = 1`. -/
inductive EncryptionType where
  | NONE
  | AES128
deriving DecidableEq

/-- Integer discriminant of an `EncryptionType` member. -/
def EncryptionType.val : EncryptionType → Nat
  | .NONE => 0
  | .AES128 => 1

/-- Fallible conversion `EncryptionType(value)`. -/
def EncryptionType.ofVal : Nat → Option EncryptionType
  | 0 => some .NONE
  | 1 => some .AES128
  | _ => none

/-- Modelled from the spec: `VerificationType` lives in
`relic.sga.core.definitions` (not under `src/`). It is
the closed enumeration of checksum scheme tags with discriminants
0 (none), 1 (CRC), 2 (CRC blocks), 3 (MD5 blocks), 4 (SHA1 blocks);
the spec's concrete scenario requires 1 to be a member. -/
inductive VerificationType where
  | NONE_VERIFICATION
  | CRC
  | CRC_BLOCKS
  | MD5_BLOCKS
  | SHA1_BLOCKS
deriving DecidableEq

/-- Integer discriminant of a `VerificationType` member. -/
def VerificationType.val : VerificationType → Nat
  | .NONE_VERIFICATION => 0
  | .CRC => 1
  | .CRC_BLOCKS => 2
  | .MD5_BLOCKS => 3
  | .SHA1_BLOCKS => 4

/-- Fallible conversion `VerificationType(value)`. -/
def VerificationType.ofVal : Nat → Option VerificationType
  | 0 => some .NONE_VERIFICATION
  | 1 => some .CRC
  | 2 => some .CRC_BLOCKS
  | 3 => some .MD5_BLOCKS
  | 4 => some .SHA1_BLOCKS
  | _ => none

theorem StorageType.storage_ofVal_val (st : StorageType) : StorageType.ofVal st.val = some st := by
  cases st <;> rfl

theorem EncryptionType.encryption_ofVal_val (et : EncryptionType) :
    EncryptionType.ofVal et.val = some et := by
  cases et <;> rfl

theorem VerificationType.verification_ofVal_val (vt : VerificationType) :
    VerificationType.ofVal vt.val = some vt := by
  cases vt <;> rfl

/-! ## Records -/

/-- `ArchivePtrs` from `relic.sga.core.serialization`: header block position
and size, data block position and size. -/
structure ArchivePtrs where
  header_pos : Nat
  header_size : Nat
  data_pos : Nat
  data_size : Nat
deriving DecidableEq

/-- Modelled from the spec: `ArchivePtrs.default()` (not under `src/`) yields
the zeroed/default pointers. -/
def ArchivePtrs.default : ArchivePtrs := ⟨0, 0, 0, 0⟩

/-- `FileDef` from `serialization.py`: the base fields
(`name_pos`, `data_pos`, `length_on_disk`, `length_in_archive`,
`storage_type`) come from `relic.sga.core.serialization.FileDef`; V10 adds
`verification`, `encryption`, `crc`, `hash_pos`. Fields populated with
Python `None` by `meta2def` are modelled as `Option`. -/
structure FileDef where
  name_pos : Option Nat
  data_pos : Option Nat
  length_on_disk : Option Nat
  length_in_archive : Option Nat
  storage_type : StorageType
  verification : VerificationType
  encryption : EncryptionType
  crc : Nat
  hash_pos : Nat
deriving DecidableEq

/-- `MetaBlock` from `serialization.py`: archive name (UTF-16 code units),
archive pointers, and the raw hash field bytes. `disassemble_meta` builds a
`MetaBlock` with `name = None` and `ptrs = None`, hence the `Option`s. -/
structure MetaBlock where
  name : Option (List Nat)
  ptrs : Option ArchivePtrs
  sha_256 : List Nat
deriving DecidableEq

/-- `TocFooter` from `serialization.py`: two opaque fields and a block size. -/
structure TocFooter where
  unk_a : Nat
  unk_b : Nat
  block_size : Nat
deriving DecidableEq

/-- The bytes literal `b"default hash.   "` (16 ASCII bytes). -/
def defaultHashPattern : List Nat := "default hash.   ".toList.map Char.toNat

/-- UTF-16 code units of the literal `"Default Meta Block"` (all BMP). -/
def defaultMetaName : List Nat := "Default Meta Block".toList.map Char.toNat

/-- `MetaBlock.default()`: the placeholder instance used for write-backs. -/
def MetaBlock.default : MetaBlock :=
  ⟨some defaultMetaName, some ArchivePtrs.default,
    List.flatten (List.replicate 16 defaultHashPattern)⟩

/-! ## Errors and results -/

/-- Errors a serializer can raise: `eof` for a short stream (`struct` error),
`mismatch` for `MismatchError(name, observed, expected)`, `domain` for the
`ValueError` a Python `IntEnum` raises on a non-member value. -/
inductive UnpackError where
  | eof
  | mismatch (what : String) (observed : Nat × Nat) (expected : Nat × Nat)
  | domain (value : Nat)
deriving DecidableEq

/-- Result of an unpack: the decoded record or the raised error. -/
inductive DecodeResult (α : Type) where
  | ok (value : α)
  | err (e : UnpackError)
deriving DecidableEq

/-! ## Name field codec (utf-16-le at code-unit granularity) -/

/-- `str.encode("utf-16-le")` on a sequence of code units: two bytes per
unit, low byte first. -/
def encodeUnits : List Nat → List Nat
  | [] => []
  | u :: us => u % 256 :: (u / 256) % 256 :: encodeUnits us

/-- `bytes.decode("utf-16-le")` on a byte sequence: pair up consecutive
bytes into code units (the 128-byte name field always has even length). -/
def decodeUnits : List Nat → List Nat
  | b0 :: b1 :: rest => (b0 + 256 * b1) :: decodeUnits rest
  | _ => []

/-- `str.rstrip("\0")`: drop trailing zero code units. -/
def rstripZeros (l : List Nat) : List Nat :=
  (l.reverse.dropWhile (fun b => b == 0)).reverse

/-! ## Serializers

Each `unpack` consumes the record's bytes from the front of the stream
(extra trailing bytes stay untouched, as with a stream cursor); each `pack`
returns the written bytes, or `none` where Python `struct.pack` would raise
on an out-of-range integer or on a `None` field. -/

/-- `FileDefSerializer.unpack` over layout `<2I Q 2I 2B I`. -/
def FileDefSerializer.unpack (bs : List Nat) : DecodeResult FileDef :=
  match readLE 4 bs with
  | none => .err .eof
  | some (name_rel_pos, bs) =>
  match readLE 4 bs with
  | none => .err .eof
  | some (hash_pos, bs) =>
  match readLE 8 bs with
  | none => .err .eof
  | some (data_rel_pos, bs) =>
  match readLE 4 bs with
  | none => .err .eof
  | some (length_in_archive, bs) =>
  match readLE 4 bs with
  | none => .err .eof
  | some (length_on_disk, bs) =>
  match readLE 1 bs with
  | none => .err .eof
  | some (verification_type_val, bs) =>
  match readLE 1 bs with
  | none => .err .eof
  | some (storage_and_encryption_flags, bs) =>
  match readLE 4 bs with
  | none => .err .eof
  | some (crc, _) =>
  let storage_value := storage_and_encryption_flags &&& 0x0F
  let encryption_value := (storage_and_encryption_flags &&& 0xF0) >>> 4
  match StorageType.ofVal storage_value with
  | none => .err (.domain storage_value)
  | some storage_type =>
  match EncryptionType.ofVal encryption_value with
  | none => .err (.domain encryption_value)
  | some encryption_type =>
  match VerificationType.ofVal verification_type_val with
  | none => .err (.domain verification_type_val)
  | some verification_type =>
    .ok { name_pos := some name_rel_pos
          data_pos := some data_rel_pos
          length_on_disk := some length_on_disk
          length_in_archive := some length_in_archive
          storage_type := storage_type
          verification := verification_type
          encryption := encryption_type
          crc := crc
          hash_pos := hash_pos }

/-- `FileDefSerializer.pack`: the flags byte is
`(encryption << ENCRYPTION_SHIFT) | storage`. -/
def FileDefSerializer.pack (v : FileDef) : Option (List Nat) :=
  match v.name_pos, v.data_pos, v.length_on_disk, v.length_in_archive with
  | some np, some dp, some lod, some lia =>
    if np < 2 ^ 32 ∧ v.hash_pos < 2 ^ 32 ∧ dp < 2 ^ 64 ∧ lia < 2 ^ 32 ∧
        lod < 2 ^ 32 ∧ v.crc < 2 ^ 32 then
      some (toLE 4 np ++ toLE 4 v.hash_pos ++ toLE 8 dp ++ toLE 4 lia ++
        toLE 4 lod ++ toLE 1 v.verification.val ++
        toLE 1 ((v.encryption.val <<< 4) ||| v.storage_type.val) ++ toLE 4 v.crc)
    else none
  | _, _, _, _ => none

/-- `ArchiveHeaderSerializer.unpack` over layout `<128s QI QI 2I 256s`:
decode the name, build `ArchivePtrs`, then enforce the reserved constants
`RSV_0 = 0`, `RSV_1 = 1`. -/
def ArchiveHeaderSerializer.unpack (bs : List Nat) : DecodeResult MetaBlock :=
  match readBytes 128 bs with
  | none => .err .eof
  | some (encoded_name, bs) =>
  match readLE 8 bs with
  | none => .err .eof
  | some (header_pos, bs) =>
  match readLE 4 bs with
  | none => .err .eof
  | some (header_size, bs) =>
  match readLE 8 bs with
  | none => .err .eof
  | some (data_pos, bs) =>
  match readLE 4 bs with
  | none => .err .eof
  | some (data_size, bs) =>
  match readLE 4 bs with
  | none => .err .eof
  | some (rsv_0, bs) =>
  match readLE 4 bs with
  | none => .err .eof
  | some (rsv_1, bs) =>
  match readBytes 256 bs with
  | none => .err .eof
  | some (sha_256, _) =>
  let name := rstripZeros (decodeUnits encoded_name)
  let ptrs : ArchivePtrs := ⟨header_pos, header_size, data_pos, data_size⟩
  if (rsv_0, rsv_1) ≠ ((0 : Nat), (1 : Nat)) then
    .err (.mismatch "Reserved Flags" (rsv_0, rsv_1) (0, 1))
  else
    .ok ⟨some name, some ptrs, sha_256⟩

/-- `ArchiveHeaderSerializer.pack`: writes the encoded name (`128s` pads or
truncates it), the pointers, the constants `RSV_0` and `RSV_1`, and the hash
(`256s` pads or truncates it). -/
def ArchiveHeaderSerializer.pack (m : MetaBlock) : Option (List Nat) :=
  match m.name, m.ptrs with
  | some nameUnits, some ptrs =>
    if ptrs.header_pos < 2 ^ 64 ∧ ptrs.header_size < 2 ^ 32 ∧
        ptrs.data_pos < 2 ^ 64 ∧ ptrs.data_size < 2 ^ 32 then
      some (padTrunc 128 (encodeUnits nameUnits) ++
        toLE 8 ptrs.header_pos ++ toLE 4 ptrs.header_size ++
        toLE 8 ptrs.data_pos ++ toLE 4 ptrs.data_size ++
        toLE 4 0 ++ toLE 4 1 ++ padTrunc 256 m.sha_256)
    else none
  | _, _ => none

/-- `TocFooterSerializer.unpack` over layout `<3I`. -/
def TocFooterSerializer.unpack (bs : List Nat) : DecodeResult TocFooter :=
  match readLE 4 bs with
  | none => .err .eof
  | some (unk_a, bs) =>
  match readLE 4 bs with
  | none => .err .eof
  | some (unk_b, bs) =>
  match readLE 4 bs with
  | none => .err .eof
  | some (block_size, _) =>
    .ok ⟨unk_a, unk_b, block_size⟩

/-- `TocFooterSerializer.pack`. -/
def TocFooterSerializer.pack (f : TocFooter) : Option (List Nat) :=
  if f.unk_a < 2 ^ 32 ∧ f.unk_b < 2 ^ 32 ∧ f.block_size < 2 ^ 32 then
    some (toLE 4 f.unk_a ++ toLE 4 f.unk_b ++ toLE 4 f.block_size)
  else none

/-! ## Blob builders (test harness for arbitrary well-formed byte input) -/

/-- A 30-byte `FileDef` record with the given raw field values. -/
def fileBlobWith (np hp dp lia lod vtv flags crc : Nat) : List Nat :=
  toLE 4 np ++ toLE 4 hp ++ toLE 8 dp ++ toLE 4 lia ++ toLE 4 lod ++
    toLE 1 vtv ++ toLE 1 flags ++ toLE 4 crc

/-- A 416-byte `MetaBlock` record with the given raw field values. -/
def metaBlobWith (units : List Nat) (hp hs dp ds r0 r1 : Nat)
    (sha : List Nat) : List Nat :=
  padTrunc 128 (encodeUnits units) ++ toLE 8 hp ++ toLE 4 hs ++
    toLE 8 dp ++ toLE 4 ds ++ toLE 4 r0 ++ toLE 4 r1 ++ padTrunc 256 sha

/-! ## Metadata assemble / disassemble glue -/

/-- Lowercase hex encoding of a byte string (`bytes.hex()`). -/
def bytesToHex : List Nat → List Char
  | [] => []
  | b :: bs => Nat.digitChar (b / 16) :: Nat.digitChar (b % 16) :: bytesToHex bs

/-- Value of one hex digit character, accepting both cases
(`bytes.fromhex` raises `ValueError` on anything else). -/
def hexVal (c : Char) : Option Nat :=
  if 48 ≤ c.toNat ∧ c.toNat ≤ 57 then some (c.toNat - 48)
  else if 97 ≤ c.toNat ∧ c.toNat ≤ 102 then some (c.toNat - 87)
  else if 65 ≤ c.toNat ∧ c.toNat ≤ 70 then some (c.toNat - 55)
  else none

/-- `bytes.fromhex`: consume hex digit pairs, high nibble first. -/
def hexToBytes : List Char → Option (List Nat)
  | [] => some []
  | [_] => none
  | c1 :: c2 :: rest =>
    match hexVal c1, hexVal c2, hexToBytes rest with
    | some h, some l, some bs => some ((16 * h + l) :: bs)
    | _, _, _ => none

/-- The metadata dictionary produced by `assemble_meta` / consumed by
`disassemble_meta`; its key set is fixed, so it is modelled as a record. -/
structure ArchiveMetadata where
  sha_256 : List Char
  unk_a : Nat
  unk_b : Nat
  block_size : Nat
deriving DecidableEq

/-- `assemble_meta` (the unused stream argument is dropped). -/
def assemble_meta (header : MetaBlock) (footer : TocFooter) : ArchiveMetadata :=
  ⟨bytesToHex header.sha_256, footer.unk_a, footer.unk_b, footer.block_size⟩

/-- `disassemble_meta`: builds a `MetaBlock` with `name = None` and
`ptrs = None`; `bytes.fromhex` failure is the `none` case. -/
def disassemble_meta (metadata : ArchiveMetadata) :
    Option (MetaBlock × TocFooter) :=
  match hexToBytes metadata.sha_256 with
  | some sha => some (⟨none, none, sha⟩,
      ⟨metadata.unk_a, metadata.unk_b, metadata.block_size⟩)
  | none => none

/-- The per-file metadata dictionary of `def2meta` / `meta2def`. -/
structure FileMetadata where
  storage_type : Nat
  verification_type : Nat
  encryption_type : Nat
  hash_pos : Nat
  crc : Nat
deriving DecidableEq

/-- `def2meta`: extract the stored per-file metadata as plain integers. -/
def def2meta (d : FileDef) : FileMetadata :=
  ⟨d.storage_type.val, d.verification.val, d.encryption.val, d.hash_pos, d.crc⟩

/-- `meta2def`: rebuild a `FileDef` from per-file metadata; the four
positional/length fields are filled with `None`. Enum conversion failure
(`ValueError`) is the `none` case. -/
def meta2def (meta : FileMetadata) : Option FileDef :=
  match VerificationType.ofVal meta.verification_type,
      EncryptionType.ofVal meta.encryption_type,
      StorageType.ofVal meta.storage_type with
  | some verification, some encryption, some storage_type =>
    some { name_pos := none
           data_pos := none
           length_on_disk := none
           length_in_archive := none
           storage_type := storage_type
           verification := verification
           encryption := encryption
           crc := meta.crc
           hash_pos := meta.hash_pos }
  | _, _, _ => none

/-! ## Helper lemmas about the byte-level primitives -/

theorem readBytes_all (w : Nat) (s : List Nat) (h : s.length = w) :
    readBytes w s = some (s, []) := by
  subst h
  simp [readBytes, List.take_of_length_le (Nat.le_refl _),
    List.drop_of_length_le (Nat.le_refl _)]

theorem readLE4_toLE (v : Nat) (rest : List Nat) (h : v < 2 ^ 32) :
    readLE 4 (toLE 4 v ++ rest) = some (v, rest) := by
  refine readLE_toLE 4 v rest ?_
  have : (256 : Nat) ^ 4 = 2 ^ 32 := by norm_num
  rw [this]
  exact h

theorem readLE8_toLE (v : Nat) (rest : List Nat) (h : v < 2 ^ 64) :
    readLE 8 (toLE 8 v ++ rest) = some (v, rest) := by
  refine readLE_toLE 8 v rest ?_
  have : (256 : Nat) ^ 8 = 2 ^ 64 := by norm_num
  rw [this]
  exact h

theorem readLE1_toLE (v : Nat) (rest : List Nat) (h : v < 256) :
    readLE 1 (toLE 1 v ++ rest) = some (v, rest) := by
  refine readLE_toLE 1 v rest ?_
  simpa using h

@[simp] theorem encodeUnits_length (us : List Nat) :
    (encodeUnits us).length = 2 * us.length := by
  induction us with
  | nil => rfl
  | cons u us ih => simp [encodeUnits, ih]; omega

theorem decodeUnits_encode (us t : List Nat) (h : ∀ u ∈ us, u < 65536) :
    decodeUnits (encodeUnits us ++ t) = us ++ decodeUnits t := by
  induction us with
  | nil => simp [encodeUnits]
  | cons u us ih =>
    have hu : u < 65536 := h u (List.mem_cons_self u us)
    have hmod : (u / 256) % 256 = u / 256 :=
      Nat.mod_eq_of_lt (Nat.div_lt_of_lt_mul (by omega))
    have hrec := ih (fun x hx => h x (List.mem_cons_of_mem u hx))
    simp [encodeUnits, decodeUnits, hrec, hmod, Nat.mod_add_div u 256]

theorem decodeUnits_replicate_zero (k : Nat) :
    decodeUnits (List.replicate (2 * k) 0) = List.replicate k 0 := by
  induction k with
  | zero => rfl
  | succ k ih =>
    have h2 : 2 * (k + 1) = (2 * k) + 1 + 1 := by ring
    rw [h2, List.replicate_succ, List.replicate_succ, List.replicate_succ]
    simp [decodeUnits, ih]

theorem decodeUnits_length : ∀ bs : List Nat,
    (decodeUnits bs).length = bs.length / 2
  | [] => rfl
  | [_] => by simp [decodeUnits]
  | b0 :: b1 :: rest => by
    simp [decodeUnits, decodeUnits_length rest]
    omega

theorem dropWhile_zeros_append (k : Nat) (l : List Nat) :
    List.dropWhile (fun b => b == 0) (List.replicate k 0 ++ l) =
      List.dropWhile (fun b => b == 0) l := by
  induction k with
  | zero => simp
  | succ k ih => simp [List.replicate_succ, List.dropWhile, ih]

theorem rstripZeros_append_replicate (us : List Nat) (k : Nat) :
    rstripZeros (us ++ List.replicate k 0) = rstripZeros us := by
  unfold rstripZeros
  rw [List.reverse_append, List.reverse_replicate, dropWhile_zeros_append]

theorem dropWhile_length_le (p : Nat → Bool) (l : List Nat) :
    (List.dropWhile p l).length ≤ l.length := by
  induction l with
  | nil => simp
  | cons a l ih =>
    simp only [List.dropWhile]
    cases hpa : p a
    · simp
    · simpa using Nat.le_succ_of_le ih

theorem rstripZeros_length_le (l : List Nat) :
    (rstripZeros l).length ≤ l.length := by
  unfold rstripZeros
  calc (List.dropWhile (fun b => b == 0) l.reverse).reverse.length
      = (List.dropWhile (fun b => b == 0) l.reverse).length := by
        rw [List.length_reverse]
    _ ≤ l.reverse.length := dropWhile_length_le _ _
    _ = l.length := List.length_reverse l

theorem encodeUnits_take (us : List Nat) (k : Nat) :
    (encodeUnits us).take (2 * k) = encodeUnits (us.take k) := by
  induction us generalizing k with
  | nil => simp [encodeUnits]
  | cons u us ih =>
    cases k with
    | zero => simp [encodeUnits]
    | succ k =>
      have h2 : 2 * (k + 1) = (2 * k) + 1 + 1 := by ring
      rw [h2]
      simp [encodeUnits, List.take_succ_cons, ih]

/-! ## General unpack/pack equations over the blob builders -/

theorem unpack_metaBlobWith (units : List Nat) (hp hs dp ds r0 r1 : Nat)
    (sha : List Nat) (hhp : hp < 2 ^ 64) (hhs : hs < 2 ^ 32)
    (hdp : dp < 2 ^ 64) (hds : ds < 2 ^ 32) (hr0 : r0 < 2 ^ 32)
    (hr1 : r1 < 2 ^ 32) :
    ArchiveHeaderSerializer.unpack (metaBlobWith units hp hs dp ds r0 r1 sha) =
      if (r0, r1) ≠ ((0 : Nat), (1 : Nat)) then
        .err (.mismatch "Reserved Flags" (r0, r1) (0, 1))
      else
        .ok ⟨some (rstripZeros (decodeUnits (padTrunc 128 (encodeUnits units)))),
          some ⟨hp, hs, dp, ds⟩, padTrunc 256 sha⟩ := by
  have H0 : ∀ rest, readBytes 128 (padTrunc 128 (encodeUnits units) ++ rest) =
      some (padTrunc 128 (encodeUnits units), rest) :=
    fun rest => readBytes_of_length 128 _ rest (padTrunc_length _ _)
  have H1 : ∀ rest, readLE 8 (toLE 8 hp ++ rest) = some (hp, rest) :=
    fun rest => readLE8_toLE hp rest hhp
  have H2 : ∀ rest, readLE 4 (toLE 4 hs ++ rest) = some (hs, rest) :=
    fun rest => readLE4_toLE hs rest hhs
  have H3 : ∀ rest, readLE 8 (toLE 8 dp ++ rest) = some (dp, rest) :=
    fun rest => readLE8_toLE dp rest hdp
  have H4 : ∀ rest, readLE 4 (toLE 4 ds ++ rest) = some (ds, rest) :=
    fun rest => readLE4_toLE ds rest hds
  have H5 : ∀ rest, readLE 4 (toLE 4 r0 ++ rest) = some (r0, rest) :=
    fun rest => readLE4_toLE r0 rest hr0
  have H6 : ∀ rest, readLE 4 (toLE 4 r1 ++ rest) = some (r1, rest) :=
    fun rest => readLE4_toLE r1 rest hr1
  have H7 : readBytes 256 (padTrunc 256 sha) = some (padTrunc 256 sha, []) :=
    readBytes_all 256 _ (padTrunc_length _ _)
  simp only [metaBlobWith, ArchiveHeaderSerializer.unpack, List.append_assoc,
    H0, H1, H2, H3, H4, H5, H6, H7]

theorem pack_metaBlock_eq (units : List Nat) (hp hs dp ds : Nat)
    (sha : List Nat) (hhp : hp < 2 ^ 64) (hhs : hs < 2 ^ 32)
    (hdp : dp < 2 ^ 64) (hds : ds < 2 ^ 32) :
    ArchiveHeaderSerializer.pack ⟨some units, some ⟨hp, hs, dp, ds⟩, sha⟩ =
      some (metaBlobWith units hp hs dp ds 0 1 sha) := by
  simp only [ArchiveHeaderSerializer.pack, metaBlobWith]
  rw [if_pos ⟨hhp, hhs, hdp, hds⟩]

theorem pack_fileDef_eq (np dp lod lia : Nat) (st : StorageType)
    (vt : VerificationType) (et : EncryptionType) (crc hp : Nat)
    (hnp : np < 2 ^ 32) (hhp : hp < 2 ^ 32) (hdp : dp < 2 ^ 64)
    (hlia : lia < 2 ^ 32) (hlod : lod < 2 ^ 32) (hcrc : crc < 2 ^ 32) :
    FileDefSerializer.pack ⟨some np, some dp, some lod, some lia, st, vt, et, crc, hp⟩ =
      some (fileBlobWith np hp dp lia lod vt.val
        ((et.val <<< 4) ||| st.val) crc) := by
  simp only [FileDefSerializer.pack, fileBlobWith]
  rw [if_pos ⟨hnp, hhp, hdp, hlia, hlod, hcrc⟩]

theorem unpack_fileBlobWith (np hp dp lia lod vtv flags crc : Nat)
    (hnp : np < 2 ^ 32) (hhp : hp < 2 ^ 32) (hdp : dp < 2 ^ 64)
    (hlia : lia < 2 ^ 32) (hlod : lod < 2 ^ 32) (hvtv : vtv < 256)
    (hflags : flags < 256) (hcrc : crc < 2 ^ 32) :
    FileDefSerializer.unpack (fileBlobWith np hp dp lia lod vtv flags crc) =
      (match StorageType.ofVal (flags &&& 0x0F) with
       | none => .err (.domain (flags &&& 0x0F))
       | some storage_type =>
       match EncryptionType.ofVal ((flags &&& 0xF0) >>> 4) with
       | none => .err (.domain ((flags &&& 0xF0) >>> 4))
       | some encryption_type =>
       match VerificationType.ofVal vtv with
       | none => .err (.domain vtv)
       | some verification_type =>
         .ok ⟨some np, some dp, some lod, some lia, storage_type,
           verification_type, encryption_type, crc, hp⟩) := by
  have H1 : ∀ rest, readLE 4 (toLE 4 np ++ rest) = some (np, rest) :=
    fun rest => readLE4_toLE np rest hnp
  have H2 : ∀ rest, readLE 4 (toLE 4 hp ++ rest) = some (hp, rest) :=
    fun rest => readLE4_toLE hp rest hhp
  have H3 : ∀ rest, readLE 8 (toLE 8 dp ++ rest) = some (dp, rest) :=
    fun rest => readLE8_toLE dp rest hdp
  have H4 : ∀ rest, readLE 4 (toLE 4 lia ++ rest) = some (lia, rest) :=
    fun rest => readLE4_toLE lia rest hlia
  have H5 : ∀ rest, readLE 4 (toLE 4 lod ++ rest) = some (lod, rest) :=
    fun rest => readLE4_toLE lod rest hlod
  have H6 : ∀ rest, readLE 1 (toLE 1 vtv ++ rest) = some (vtv, rest) :=
    fun rest => readLE1_toLE vtv rest hvtv
  have H7 : ∀ rest, readLE 1 (toLE 1 flags ++ rest) = some (flags, rest) :=
    fun rest => readLE1_toLE flags rest hflags
  have H8 : readLE 4 (toLE 4 crc) = some (crc, []) := by
    have := readLE4_toLE crc [] hcrc
    simpa using this
  simp only [fileBlobWith, FileDefSerializer.unpack, List.append_assoc,
    H1, H2, H3, H4, H5, H6, H7, H8]

/-! ## Nibble arithmetic for the packed flags byte -/

theorem nibble_lo : ∀ s < 16, ∀ e < 16, ((e <<< 4) ||| s) &&& 0x0F = s := by
  decide

theorem nibble_hi : ∀ s < 16, ∀ e < 16,
    (((e <<< 4) ||| s) &&& 0xF0) >>> 4 = e := by
  decide

theorem flags_lt_256 : ∀ s < 16, ∀ e < 16, ((e <<< 4) ||| s) < 256 := by
  decide

theorem StorageType.storage_val_lt (st : StorageType) : st.val < 16 := by
  cases st <;> decide

theorem EncryptionType.encryption_val_lt (et : EncryptionType) : et.val < 16 := by
  cases et <;> decide

theorem VerificationType.verification_val_lt (vt : VerificationType) : vt.val < 256 := by
  cases vt <;> decide

theorem flatten_replicate_length (n : Nat) (l : List Nat) :
    (List.flatten (List.replicate n l)).length = n * l.length := by
  induction n with
  | zero => simp
  | succ n ih =>
    simp only [List.replicate_succ, List.flatten_cons, List.length_append, ih]
    ring

theorem hexVal_digitChar : ∀ n < 16, hexVal (Nat.digitChar n) = some n := by
  decide

theorem hexToBytes_bytesToHex (bs : List Nat) (h : ∀ b ∈ bs, b < 256) :
    hexToBytes (bytesToHex bs) = some bs := by
  induction bs with
  | nil => rfl
  | cons b bs ih =>
    have hb : b < 256 := h b (List.mem_cons_self b bs)
    have h1 : hexVal (Nat.digitChar (b / 16)) = some (b / 16) :=
      hexVal_digitChar _ (by omega)
    have h2 : hexVal (Nat.digitChar (b % 16)) = some (b % 16) :=
      hexVal_digitChar _ (Nat.mod_lt _ (by norm_num))
    have hrec := ih (fun x hx => h x (List.mem_cons_of_mem _ hx))
    simp [bytesToHex, hexToBytes, h1, h2, hrec, Nat.div_add_mod b 16]

/-! ## Claim theorems -/

/-- C4: decoding the specific 30-byte little-endian buffer with
`name_pos=0x10, hash_pos=0x20, data_pos=0x1000, length_in_archive=100,
length_on_disk=50, verification_type=1`, packed flags byte `0x12`,
`crc=0xDEADBEEF` yields a `FileDef` with `storage_type=2` (stream compress),
`encryption=AES128`, `verification_type=1` (CRC), `crc=0xDEADBEEF`, and
re-encoding that `FileDef` reproduces the original 30 bytes exactly. -/
theorem c4_concrete_fileDef_scenario :
    FileDefSerializer.unpack
        [0x10, 0, 0, 0, 0x20, 0, 0, 0, 0, 0x10, 0, 0, 0, 0, 0, 0,
         100, 0, 0, 0, 50, 0, 0, 0, 1, 0x12, 0xEF, 0xBE, 0xAD, 0xDE] =
      .ok ⟨some 0x10, some 0x1000, some 50, some 100, .STREAM_COMPRESS,
        .CRC, .AES128, 0xDEADBEEF, 0x20⟩ ∧
    FileDefSerializer.pack ⟨some 0x10, some 0x1000, some 50, some 100,
        .STREAM_COMPRESS, .CRC, .AES128, 0xDEADBEEF, 0x20⟩ =
      some [0x10, 0, 0, 0, 0x20, 0, 0, 0, 0, 0x10, 0, 0, 0, 0, 0, 0,
         100, 0, 0, 0, 50, 0, 0, 0, 1, 0x12, 0xEF, 0xBE, 0xAD, 0xDE] ∧
    StorageType.STREAM_COMPRESS.val = 2 ∧ VerificationType.CRC.val = 1 := by
  refine ⟨by decide, by decide, rfl, rfl⟩

/-- C9: for every `FileDef`, `meta2def (def2meta d)` succeeds and returns a
`FileDef` with the same `storage_type`, `verification`, `encryption`,
`hash_pos` and `crc` as `d`, and with `name_pos`, `data_pos`,
`length_in_archive`, `length_on_disk` left unset (`None`). -/
theorem c9_def2meta_meta2def_roundtrip (d : FileDef) :
    meta2def (def2meta d) =
      some ⟨none, none, none, none, d.storage_type, d.verification,
        d.encryption, d.crc, d.hash_pos⟩ := by
  simp [meta2def, def2meta, StorageType.storage_ofVal_val, EncryptionType.encryption_ofVal_val,
    VerificationType.verification_ofVal_val]

/-- C6: for every `MetaBlock` and `TocFooter`, `disassemble_meta` applied to
the dictionary `assemble_meta` produced reproduces `unk_a`, `unk_b`,
`block_size` and the hash bytes exactly (through hex encoding/decoding),
with the returned `MetaBlock`'s `name` and `ptrs` left unset. -/
theorem c6_metadata_roundtrip (m : MetaBlock) (f : TocFooter)
    (h : ∀ b ∈ m.sha_256, b < 256) :
    disassemble_meta (assemble_meta m f) =
      some (⟨none, none, m.sha_256⟩, f) := by
  simp [assemble_meta, disassemble_meta, hexToBytes_bytesToHex m.sha_256 h]

/-- Witness for C6 at a concrete `MetaBlock` and `TocFooter`. -/
theorem c6_metadata_roundtrip_witness :
    disassemble_meta (assemble_meta
        ⟨some [65], some ⟨1, 2, 3, 4⟩, [0, 171, 255]⟩ ⟨5, 6, 7⟩) =
      some (⟨none, none, [0, 171, 255]⟩, ⟨5, 6, 7⟩) :=
  c6_metadata_roundtrip ⟨some [65], some ⟨1, 2, 3, 4⟩, [0, 171, 255]⟩ ⟨5, 6, 7⟩
    (by decide)

/-- C7 counterexample: the dummy hash of `MetaBlock.default` is not 32
repeats of any 16-byte pattern — it has 256 bytes, not 512. -/
theorem c7_counterexample :
    ¬ ∃ p : List Nat, p.length = 16 ∧
      MetaBlock.default.sha_256 = List.flatten (List.replicate 32 p) := by
  rintro ⟨p, hlen, heq⟩
  have h1 : MetaBlock.default.sha_256.length = 256 := by decide
  have h2 : (List.flatten (List.replicate 32 p)).length = 512 := by
    rw [flatten_replicate_length, hlen]
  rw [heq, h2] at h1
  omega

/-- C7 (amended): `MetaBlock.default()` is a placeholder whose dummy hash is
16 repeats of the fixed 16-byte pattern `b"default hash.   "` and whose
`ArchivePtrs` are the zeroed/default pointers. -/
theorem c7_default_metaBlock :
    MetaBlock.default.sha_256 =
      List.flatten (List.replicate 16 defaultHashPattern) ∧
    defaultHashPattern =
      [100, 101, 102, 97, 117, 108, 116, 32, 104, 97, 115, 104, 46, 32, 32, 32] ∧
    defaultHashPattern.length = 16 ∧
    MetaBlock.default.ptrs = some ArchivePtrs.default ∧
    ArchivePtrs.default = ⟨0, 0, 0, 0⟩ := by
  refine ⟨rfl, by decide, by decide, rfl, rfl⟩

/-- C8 counterexample: decoding a concrete valid header blob yields a
`MetaBlock` whose hash field has 256 bytes, not 32 bytes (256 bits). -/
theorem c8_counterexample :
    ArchiveHeaderSerializer.unpack
        (metaBlobWith [] 0 0 0 0 0 1 (List.replicate 256 0)) =
      .ok ⟨some [], some ⟨0, 0, 0, 0⟩, List.replicate 256 0⟩ ∧
    (List.replicate (256 : Nat) (0 : Nat)).length ≠ 32 := by
  refine ⟨by decide, by decide⟩

/-- C8 (amended): the content hash carried by every `MetaBlock` produced by
decoding is 256 raw bytes (the `256s` field), not 32 bytes. -/
theorem c8_decoded_hash_length (bs : List Nat) (m : MetaBlock)
    (h : ArchiveHeaderSerializer.unpack bs = .ok m) :
    m.sha_256.length = 256 := by
  unfold ArchiveHeaderSerializer.unpack at h
  split at h
  · exact DecodeResult.noConfusion h
  split at h
  · exact DecodeResult.noConfusion h
  split at h
  · exact DecodeResult.noConfusion h
  split at h
  · exact DecodeResult.noConfusion h
  split at h
  · exact DecodeResult.noConfusion h
  split at h
  · exact DecodeResult.noConfusion h
  split at h
  · exact DecodeResult.noConfusion h
  split at h
  · exact DecodeResult.noConfusion h
  rename_i sha rest hsha
  split at h
  · exact DecodeResult.noConfusion h
  cases h
  exact readBytes_some 256 _ _ _ hsha

/-- Witness for C8's amended theorem at a concrete header blob. -/
theorem c8_decoded_hash_length_witness :
    (⟨some [], some ⟨0, 0, 0, 0⟩, List.replicate 256 0⟩ : MetaBlock).sha_256.length = 256 :=
  c8_decoded_hash_length
    (metaBlobWith [] 0 0 0 0 0 1 (List.replicate 256 0))
    ⟨some [], some ⟨0, 0, 0, 0⟩, List.replicate 256 0⟩ (by decide)

/-! ## Round-trip auxiliary lemmas -/

theorem fileDef_roundtrip (np dp lod lia : Nat) (st : StorageType)
    (vt : VerificationType) (et : EncryptionType) (crc hp : Nat)
    (hnp : np < 2 ^ 32) (hhp : hp < 2 ^ 32) (hdp : dp < 2 ^ 64)
    (hlia : lia < 2 ^ 32) (hlod : lod < 2 ^ 32) (hcrc : crc < 2 ^ 32) :
    ∃ bs, FileDefSerializer.pack
        ⟨some np, some dp, some lod, some lia, st, vt, et, crc, hp⟩ = some bs ∧
      FileDefSerializer.unpack bs =
        .ok ⟨some np, some dp, some lod, some lia, st, vt, et, crc, hp⟩ := by
  refine ⟨_, pack_fileDef_eq np dp lod lia st vt et crc hp
    hnp hhp hdp hlia hlod hcrc, ?_⟩
  have hs16 := StorageType.storage_val_lt st
  have he16 := EncryptionType.encryption_val_lt et
  have hflags : ((et.val <<< 4) ||| st.val) < 256 :=
    flags_lt_256 st.val hs16 et.val he16
  rw [unpack_fileBlobWith np hp dp lia lod vt.val ((et.val <<< 4) ||| st.val)
    crc hnp hhp hdp hlia hlod (VerificationType.verification_val_lt vt) hflags hcrc]
  rw [nibble_lo st.val hs16 et.val he16, nibble_hi st.val hs16 et.val he16]
  simp [StorageType.storage_ofVal_val, EncryptionType.encryption_ofVal_val,
    VerificationType.verification_ofVal_val]

theorem metaBlock_roundtrip (units : List Nat) (hp hs dp ds : Nat)
    (sha : List Nat) (hlen : units.length ≤ 64)
    (hbound : ∀ u ∈ units, u < 65536) (hstrip : rstripZeros units = units)
    (hsha : sha.length = 256) (hhp : hp < 2 ^ 64) (hhs : hs < 2 ^ 32)
    (hdp : dp < 2 ^ 64) (hds : ds < 2 ^ 32) :
    ∃ bs, ArchiveHeaderSerializer.pack
        ⟨some units, some ⟨hp, hs, dp, ds⟩, sha⟩ = some bs ∧
      ArchiveHeaderSerializer.unpack bs =
        .ok ⟨some units, some ⟨hp, hs, dp, ds⟩, sha⟩ := by
  refine ⟨_, pack_metaBlock_eq units hp hs dp ds sha hhp hhs hdp hds, ?_⟩
  rw [unpack_metaBlobWith units hp hs dp ds 0 1 sha hhp hhs hdp hds
    (by norm_num) (by norm_num)]
  rw [if_neg (by simp)]
  have hename : (encodeUnits units).length = 2 * units.length :=
    encodeUnits_length units
  have hpad : padTrunc 128 (encodeUnits units) =
      encodeUnits units ++ List.replicate (128 - 2 * units.length) 0 := by
    rw [padTrunc_of_le _ _ (by omega), hename]
  have h2 : 128 - 2 * units.length = 2 * (64 - units.length) := by omega
  rw [hpad, h2, decodeUnits_encode units _ hbound, decodeUnits_replicate_zero,
    rstripZeros_append_replicate, hstrip, padTrunc_of_length 256 sha hsha]

theorem tocFooter_roundtrip (a b c : Nat) (ha : a < 2 ^ 32) (hb : b < 2 ^ 32)
    (hc : c < 2 ^ 32) :
    ∃ bs, TocFooterSerializer.pack ⟨a, b, c⟩ = some bs ∧
      TocFooterSerializer.unpack bs = .ok ⟨a, b, c⟩ := by
  have H1 : ∀ rest, readLE 4 (toLE 4 a ++ rest) = some (a, rest) :=
    fun rest => readLE4_toLE a rest ha
  have H2 : ∀ rest, readLE 4 (toLE 4 b ++ rest) = some (b, rest) :=
    fun rest => readLE4_toLE b rest hb
  have H3 : readLE 4 (toLE 4 c) = some (c, []) := by
    simpa using readLE4_toLE c [] hc
  refine ⟨toLE 4 a ++ toLE 4 b ++ toLE 4 c, ?_, ?_⟩
  · simp only [TocFooterSerializer.pack]
    rw [if_pos ⟨ha, hb, hc⟩]
  · simp only [TocFooterSerializer.unpack, List.append_assoc, H1, H2, H3]

/-- C1: for every valid `FileDef`, `MetaBlock` and `TocFooter` value,
encoding then decoding yields the original record back bit-for-bit.
Validity means: every integer field fits its fixed-width layout field, the
enum fields are members of their enumerations (enforced by the embedding's
types), and — for a `MetaBlock` — the name's encoding fits the 128-byte
field with no trailing null code units and the hash has exactly 256 bytes. -/
theorem c1_roundtrip :
    (∀ (np dp lod lia : Nat) (st : StorageType) (vt : VerificationType)
        (et : EncryptionType) (crc hp : Nat),
      np < 2 ^ 32 → hp < 2 ^ 32 → dp < 2 ^ 64 → lia < 2 ^ 32 →
      lod < 2 ^ 32 → crc < 2 ^ 32 →
      ∃ bs, FileDefSerializer.pack
          ⟨some np, some dp, some lod, some lia, st, vt, et, crc, hp⟩ = some bs ∧
        FileDefSerializer.unpack bs =
          .ok ⟨some np, some dp, some lod, some lia, st, vt, et, crc, hp⟩) ∧
    (∀ (units : List Nat) (hp hs dp ds : Nat) (sha : List Nat),
      units.length ≤ 64 → (∀ u ∈ units, u < 65536) →
      rstripZeros units = units → sha.length = 256 →
      hp < 2 ^ 64 → hs < 2 ^ 32 → dp < 2 ^ 64 → ds < 2 ^ 32 →
      ∃ bs, ArchiveHeaderSerializer.pack
          ⟨some units, some ⟨hp, hs, dp, ds⟩, sha⟩ = some bs ∧
        ArchiveHeaderSerializer.unpack bs =
          .ok ⟨some units, some ⟨hp, hs, dp, ds⟩, sha⟩) ∧
    (∀ a b c : Nat, a < 2 ^ 32 → b < 2 ^ 32 → c < 2 ^ 32 →
      ∃ bs, TocFooterSerializer.pack ⟨a, b, c⟩ = some bs ∧
        TocFooterSerializer.unpack bs = .ok ⟨a, b, c⟩) :=
  ⟨fun np dp lod lia st vt et crc hp hnp hhp hdp hlia hlod hcrc =>
      fileDef_roundtrip np dp lod lia st vt et crc hp hnp hhp hdp hlia hlod hcrc,
    fun units hp hs dp ds sha h1 h2 h3 h4 h5 h6 h7 h8 =>
      metaBlock_roundtrip units hp hs dp ds sha h1 h2 h3 h4 h5 h6 h7 h8,
    fun a b c ha hb hc => tocFooter_roundtrip a b c ha hb hc⟩

/-- Witness for C1 at one concrete record of each kind. -/
theorem c1_roundtrip_witness :
    (∃ bs, FileDefSerializer.pack
        ⟨some 1, some 2, some 3, some 4, .STORE, .CRC, .AES128, 5, 6⟩ = some bs ∧
      FileDefSerializer.unpack bs =
        .ok ⟨some 1, some 2, some 3, some 4, .STORE, .CRC, .AES128, 5, 6⟩) ∧
    (∃ bs, ArchiveHeaderSerializer.pack
        ⟨some [72], some ⟨1, 2, 3, 4⟩, List.replicate 256 7⟩ = some bs ∧
      ArchiveHeaderSerializer.unpack bs =
        .ok ⟨some [72], some ⟨1, 2, 3, 4⟩, List.replicate 256 7⟩) ∧
    (∃ bs, TocFooterSerializer.pack ⟨1, 2, 3⟩ = some bs ∧
      TocFooterSerializer.unpack bs = .ok ⟨1, 2, 3⟩) :=
  ⟨c1_roundtrip.1 1 2 3 4 .STORE .CRC .AES128 5 6 (by decide) (by decide)
      (by decide) (by decide) (by decide) (by decide),
    c1_roundtrip.2.1 [72] 1 2 3 4 (List.replicate 256 7) (by decide)
      (by decide) (by decide) (by decide) (by decide) (by decide) (by decide)
      (by decide),
    c1_roundtrip.2.2 1 2 3 (by decide) (by decide) (by decide)⟩

/-- C2: over every well-formed 416-byte header blob, unpack succeeds when the
two reserved fields are `(0, 1)` and raises a format-mismatch error carrying
the observed pair and the expected pair `(0, 1)` for every other pair. -/
theorem c2_reserved_field_enforcement (units : List Nat)
    (hp hs dp ds r0 r1 : Nat) (sha : List Nat) (hhp : hp < 2 ^ 64)
    (hhs : hs < 2 ^ 32) (hdp : dp < 2 ^ 64) (hds : ds < 2 ^ 32)
    (hr0 : r0 < 2 ^ 32) (hr1 : r1 < 2 ^ 32) :
    ((r0, r1) = ((0 : Nat), (1 : Nat)) →
      ∃ m, ArchiveHeaderSerializer.unpack
        (metaBlobWith units hp hs dp ds r0 r1 sha) = .ok m) ∧
    ((r0, r1) ≠ ((0 : Nat), (1 : Nat)) →
      ArchiveHeaderSerializer.unpack
          (metaBlobWith units hp hs dp ds r0 r1 sha) =
        .err (.mismatch "Reserved Flags" (r0, r1) (0, 1))) := by
  have H := unpack_metaBlobWith units hp hs dp ds r0 r1 sha hhp hhs hdp hds
    hr0 hr1
  constructor
  · intro heq
    rw [H, if_neg (by simp [heq])]
    exact ⟨_, rfl⟩
  · intro hne
    rw [H, if_pos hne]

/-- Witness for C2: a blob with reserved pair `(0, 1)` decodes, a blob with
reserved pair `(2, 3)` raises the mismatch error with both pairs attached. -/
theorem c2_reserved_field_enforcement_witness :
    (∃ m, ArchiveHeaderSerializer.unpack
      (metaBlobWith [] 0 0 0 0 0 1 []) = .ok m) ∧
    ArchiveHeaderSerializer.unpack (metaBlobWith [] 0 0 0 0 2 3 []) =
      .err (.mismatch "Reserved Flags" (2, 3) (0, 1)) :=
  ⟨(c2_reserved_field_enforcement [] 0 0 0 0 0 1 [] (by decide) (by decide)
      (by decide) (by decide) (by decide) (by decide)).1 rfl,
    (c2_reserved_field_enforcement [] 0 0 0 0 2 3 [] (by decide) (by decide)
      (by decide) (by decide) (by decide) (by decide)).2 (by decide)⟩

/-- C3: `FileDefSerializer.unpack` splits the packed flags byte into a
storage-type value (low nibble, `byte &&& 0x0F`) and an encryption-type
value (high nibble, `(byte &&& 0xF0) >>> 4`); a nibble outside its
enumeration raises a domain error; `FileDefSerializer.pack` combines the two
enum values back into one byte as `(encryption <<< 4) ||| storage`. -/
theorem c3_nibble_split_and_domain_errors :
    (∀ np hp dp lia lod vtv flags crc : Nat,
      np < 2 ^ 32 → hp < 2 ^ 32 → dp < 2 ^ 64 → lia < 2 ^ 32 →
      lod < 2 ^ 32 → vtv < 256 → flags < 256 → crc < 2 ^ 32 →
      (∀ st et vt, StorageType.ofVal (flags &&& 0x0F) = some st →
        EncryptionType.ofVal ((flags &&& 0xF0) >>> 4) = some et →
        VerificationType.ofVal vtv = some vt →
        FileDefSerializer.unpack (fileBlobWith np hp dp lia lod vtv flags crc) =
          .ok ⟨some np, some dp, some lod, some lia, st, vt, et, crc, hp⟩) ∧
      (StorageType.ofVal (flags &&& 0x0F) = none →
        FileDefSerializer.unpack (fileBlobWith np hp dp lia lod vtv flags crc) =
          .err (.domain (flags &&& 0x0F))) ∧
      (∀ st, StorageType.ofVal (flags &&& 0x0F) = some st →
        EncryptionType.ofVal ((flags &&& 0xF0) >>> 4) = none →
        FileDefSerializer.unpack (fileBlobWith np hp dp lia lod vtv flags crc) =
          .err (.domain ((flags &&& 0xF0) >>> 4)))) ∧
    (∀ (np dp lod lia : Nat) (st : StorageType) (vt : VerificationType)
        (et : EncryptionType) (crc hp : Nat),
      np < 2 ^ 32 → hp < 2 ^ 32 → dp < 2 ^ 64 → lia < 2 ^ 32 →
      lod < 2 ^ 32 → crc < 2 ^ 32 →
      FileDefSerializer.pack
          ⟨some np, some dp, some lod, some lia, st, vt, et, crc, hp⟩ =
        some (fileBlobWith np hp dp lia lod vt.val
          ((et.val <<< 4) ||| st.val) crc)) := by
  constructor
  · intro np hp dp lia lod vtv flags crc hnp hhp hdp hlia hlod hvtv hflags hcrc
    have H := unpack_fileBlobWith np hp dp lia lod vtv flags crc
      hnp hhp hdp hlia hlod hvtv hflags hcrc
    refine ⟨?_, ?_, ?_⟩
    · intro st et vt hst het hvt
      rw [H, hst, het, hvt]
    · intro hst
      rw [H, hst]
    · intro st hst het
      rw [H, hst, het]
  · intro np dp lod lia st vt et crc hp hnp hhp hdp hlia hlod hcrc
    exact pack_fileDef_eq np dp lod lia st vt et crc hp hnp hhp hdp hlia
      hlod hcrc

/-- Witness for C3: flags byte `0x12` decodes to (stream compress, AES128);
flags byte `0x1F` has storage nibble 15 and raises a domain error; flags
byte `0x32` has encryption nibble 3 and raises a domain error; pack of
(store, AES128) produces flags byte `(1 <<< 4) ||| 0`. -/
theorem c3_nibble_split_witness :
    FileDefSerializer.unpack (fileBlobWith 1 2 3 4 5 1 0x12 6) =
      .ok ⟨some 1, some 3, some 5, some 4, .STREAM_COMPRESS, .CRC,
        .AES128, 6, 2⟩ ∧
    FileDefSerializer.unpack (fileBlobWith 1 2 3 4 5 1 0x1F 6) =
      .err (.domain 15) ∧
    FileDefSerializer.unpack (fileBlobWith 1 2 3 4 5 1 0x32 6) =
      .err (.domain 3) ∧
    FileDefSerializer.pack
        ⟨some 1, some 3, some 5, some 4, .STORE, .CRC, .AES128, 6, 2⟩ =
      some (fileBlobWith 1 2 3 4 5 1 ((1 <<< 4) ||| 0) 6) := by
  refine ⟨?_, ?_, ?_, ?_⟩
  · exact ((c3_nibble_split_and_domain_errors.1 1 2 3 4 5 1 0x12 6
      (by decide) (by decide) (by decide) (by decide) (by decide) (by decide)
      (by decide) (by decide)).1 .STREAM_COMPRESS .AES128 .CRC
      (by decide) (by decide) (by decide))
  · simpa using ((c3_nibble_split_and_domain_errors.1 1 2 3 4 5 1 0x1F 6
      (by decide) (by decide) (by decide) (by decide) (by decide) (by decide)
      (by decide) (by decide)).2.1 (by decide))
  · simpa using ((c3_nibble_split_and_domain_errors.1 1 2 3 4 5 1 0x32 6
      (by decide) (by decide) (by decide) (by decide) (by decide) (by decide)
      (by decide) (by decide)).2.2 .STREAM_COMPRESS (by decide) (by decide))
  · exact c3_nibble_split_and_domain_errors.2 1 3 5 4 .STORE .CRC .AES128 6 2
      (by decide) (by decide) (by decide) (by decide) (by decide) (by decide)

/-- C5: for every `MetaBlock` the packer accepts, the output carries the
constants 0 and 1 in the two reserved 32-bit fields (bytes 152–159 of the
416-byte record), independent of anything stored in the `MetaBlock` — the
record has no reserved fields a caller could set. -/
theorem c5_pack_writes_reserved_constants (units : List Nat)
    (ptrs : ArchivePtrs) (sha : List Nat) (hhp : ptrs.header_pos < 2 ^ 64)
    (hhs : ptrs.header_size < 2 ^ 32) (hdp : ptrs.data_pos < 2 ^ 64)
    (hds : ptrs.data_size < 2 ^ 32) :
    ∃ bs, ArchiveHeaderSerializer.pack ⟨some units, some ptrs, sha⟩ = some bs ∧
      (bs.drop 152).take 8 = [0, 0, 0, 0, 1, 0, 0, 0] := by
  obtain ⟨hp, hs, dp, ds⟩ := ptrs
  refine ⟨_, pack_metaBlock_eq units hp hs dp ds sha hhp hhs hdp hds, ?_⟩
  simp only [metaBlobWith, List.append_assoc]
  rw [drop_peel (padTrunc 128 (encodeUnits units)) _ 152 (by simp)]
  simp only [padTrunc_length, Nat.reduceSub]
  rw [drop_peel (toLE 8 hp) _ 24 (by simp)]
  simp only [toLE_length, Nat.reduceSub]
  rw [drop_peel (toLE 4 hs) _ 16 (by simp)]
  simp only [toLE_length, Nat.reduceSub]
  rw [drop_peel (toLE 8 dp) _ 12 (by simp)]
  simp only [toLE_length, Nat.reduceSub]
  rw [drop_peel (toLE 4 ds) _ 4 (by simp)]
  simp only [toLE_length, Nat.reduceSub, List.drop_zero]
  rw [take_peel (toLE 4 0) _ 8 (by simp)]
  simp only [toLE_length, Nat.reduceSub]
  rw [take_peel (toLE 4 1) _ 4 (by simp)]
  simp only [toLE_length, Nat.reduceSub, List.take_zero, List.append_nil]
  rfl

/-- Witness for C5 at a concrete `MetaBlock`. -/
theorem c5_pack_writes_reserved_constants_witness :
    ∃ bs, ArchiveHeaderSerializer.pack
        ⟨some [72], some ⟨9, 8, 7, 6⟩, [5]⟩ = some bs ∧
      (bs.drop 152).take 8 = [0, 0, 0, 0, 1, 0, 0, 0] :=
  c5_pack_writes_reserved_constants [72] ⟨9, 8, 7, 6⟩ [5] (by decide)
    (by decide) (by decide) (by decide)

/-- C10: packing a `MetaBlock` whose name encodes to more than 128 bytes
does not fail: the name field of the output holds the first 128 bytes (the
first 64 code units) only, so unpack-of-pack differs from the original on
the name; the `MetaBlock` round-trip holds when the encoded name fits in
128 bytes and has no trailing null code units (unpack strips trailing
nulls). -/
theorem c10_long_name_truncation :
    (∀ (units : List Nat) (hp hs dp ds : Nat) (sha : List Nat),
      64 < units.length → (∀ u ∈ units, u < 65536) → sha.length = 256 →
      hp < 2 ^ 64 → hs < 2 ^ 32 → dp < 2 ^ 64 → ds < 2 ^ 32 →
      ∃ bs, ArchiveHeaderSerializer.pack
          ⟨some units, some ⟨hp, hs, dp, ds⟩, sha⟩ = some bs ∧
        bs.take 128 = encodeUnits (units.take 64) ∧
        ArchiveHeaderSerializer.unpack bs =
          .ok ⟨some (rstripZeros (units.take 64)), some ⟨hp, hs, dp, ds⟩, sha⟩ ∧
        rstripZeros (units.take 64) ≠ units) ∧
    (∀ (units : List Nat) (hp hs dp ds : Nat) (sha : List Nat),
      units.length ≤ 64 → (∀ u ∈ units, u < 65536) →
      rstripZeros units = units → sha.length = 256 →
      hp < 2 ^ 64 → hs < 2 ^ 32 → dp < 2 ^ 64 → ds < 2 ^ 32 →
      ∃ bs, ArchiveHeaderSerializer.pack
          ⟨some units, some ⟨hp, hs, dp, ds⟩, sha⟩ = some bs ∧
        ArchiveHeaderSerializer.unpack bs =
          .ok ⟨some units, some ⟨hp, hs, dp, ds⟩, sha⟩) := by
  constructor
  · intro units hp hs dp ds sha hlong hbound hsha hhp hhs hdp hds
    have hename : (encodeUnits units).length = 2 * units.length :=
      encodeUnits_length units
    have hpad : padTrunc 128 (encodeUnits units) = encodeUnits (units.take 64) := by
      rw [padTrunc_of_ge _ _ (by omega)]
      have h128 : (128 : Nat) = 2 * 64 := by norm_num
      rw [h128, encodeUnits_take]
    have hname : rstripZeros (decodeUnits (padTrunc 128 (encodeUnits units))) =
        rstripZeros (units.take 64) := by
      rw [hpad]
      have hb64 : ∀ u ∈ units.take 64, u < 65536 :=
        fun u hu => hbound u (List.take_subset 64 units hu)
      have := decodeUnits_encode (units.take 64) [] hb64
      simp only [List.append_nil] at this
      rw [this]
      simp [decodeUnits]
    refine ⟨_, pack_metaBlock_eq units hp hs dp ds sha hhp hhs hdp hds,
      ?_, ?_, ?_⟩
    · simp only [metaBlobWith, List.append_assoc]
      rw [take_peel (padTrunc 128 (encodeUnits units)) _ 128 (by simp)]
      simp only [padTrunc_length, Nat.reduceSub, List.take_zero,
        List.append_nil]
      exact hpad
    · rw [unpack_metaBlobWith units hp hs dp ds 0 1 sha hhp hhs hdp hds
        (by norm_num) (by norm_num)]
      rw [if_neg (by simp), hname, padTrunc_of_length 256 sha hsha]
    · intro hcontra
      have h1 : (rstripZeros (units.take 64)).length ≤ 64 := by
        calc (rstripZeros (units.take 64)).length
            ≤ (units.take 64).length := rstripZeros_length_le _
          _ ≤ 64 := by simp
      rw [hcontra] at h1
      omega
  · intro units hp hs dp ds sha h1 h2 h3 h4 h5 h6 h7 h8
    exact metaBlock_roundtrip units hp hs dp ds sha h1 h2 h3 h4 h5 h6 h7 h8

/-- Witness for C10: a 65-unit name is truncated to its first 64 units. -/
theorem c10_long_name_truncation_witness :
    ∃ bs, ArchiveHeaderSerializer.pack
        ⟨some (List.replicate 65 65), some ⟨1, 2, 3, 4⟩,
          List.replicate 256 9⟩ = some bs ∧
      bs.take 128 = encodeUnits ((List.replicate 65 65).take 64) ∧
      ArchiveHeaderSerializer.unpack bs =
        .ok ⟨some (rstripZeros ((List.replicate 65 65).take 64)),
          some ⟨1, 2, 3, 4⟩, List.replicate 256 9⟩ ∧
      rstripZeros ((List.replicate 65 65).take 64) ≠ List.replicate 65 65 :=
  c10_long_name_truncation.1 (List.replicate 65 65) 1 2 3 4
    (List.replicate 256 9) (by decide) (by decide) (by decide) (by decide)
    (by decide) (by decide) (by decide)

end SGAV10
